import Mathlib

/-!
Verification of the finance-tracker aggregation and ingestion pipeline.

The development shallowly embeds the data model and the operations of the
repository: the category-string split and the time-bucket derivation of
`preprocess_transactions` (notion.py), the filter / group-by / sum
aggregation pass of `main` (app.py), the cache-first fetch logic of
`get_transactions_from_notion` together with its Drive collaborators
(notion.py, drive.py), and the dedup-and-append ingestion path of
`send_transactions_to_notion` (notion.py).

Amounts are modelled as rationals; a nullable dataframe column is an
`Option`; a Python exception that escapes a function is an `Except.error`.
-/

namespace FinanceTracker

/-! ### Category split (polars `str.split(" > ")` with `list.first` / `list.last`)

`splitChars` splits a character list on every non-overlapping occurrence of
the separator `" > "`, scanning left to right, exactly as the polars
`str.split` expression used in `preprocess_transactions` does. -/

/-- Split on every non-overlapping occurrence of the separator `" > "`,
left to right. -/
def splitChars : List Char → List (List Char)
  | ' ' :: '>' :: ' ' :: t => [] :: splitChars t
  | c :: t =>
    match splitChars t with
    | [] => [[c]]
    | h :: r => (c :: h) :: r
  | [] => [[]]

/-- The characters before the first occurrence of the separator
(the whole list when there is none). -/
def beforeFirst : List Char → List Char
  | ' ' :: '>' :: ' ' :: _ => []
  | c :: t => c :: beforeFirst t
  | [] => []

/-- Whether the separator occurs somewhere in the list. -/
def hasSep : List Char → Bool
  | ' ' :: '>' :: ' ' :: _ => true
  | _ :: t => hasSep t
  | [] => false

/-- The characters after the last non-overlapping occurrence of the
separator (the whole list when there is none). -/
def afterLast : List Char → List Char
  | ' ' :: '>' :: ' ' :: t => afterLast t
  | c :: t => if hasSep t then afterLast t else c :: t
  | [] => []

/-- The polars split of a category string into a list of strings. -/
def splitCat (s : String) : List String :=
  (splitChars s.toList).map (fun cs => String.mk cs)

/-- Column `categorie-parent`: `str.split(" > ").list.first()`, mapped over
the nullable `categorie` column. -/
def categorieParentOf (c : Option String) : Option String :=
  c.map (fun s => (splitCat s).headD s)

/-- Column `categorie-enfant`: `str.split(" > ").list.last()`, mapped over
the nullable `categorie` column. -/
def categorieEnfantOf (c : Option String) : Option String :=
  c.map (fun s => (splitCat s).getLastD s)

/-! ### Raw transactions and normalization (`preprocess_transactions`) -/

/-- A raw transaction record as fetched from the Ledger Source
(the dict built in `get_transactions_from_notion`). -/
structure RawTx where
  date : String
  nom : String
  categorie : Option String
  montant : Option ℚ
  description : String
  compte : String
deriving DecidableEq

/-- A normalized transaction row of the dataframe produced by
`preprocess_transactions`: the raw fields plus the derived time-bucket and
category columns. The parsed date is encoded as `y * 10000 + m * 100 + d`,
which orders exactly as the parsed calendar date does. -/
structure Row where
  dateN : Nat
  nom : String
  categorie : Option String
  montant : Option ℚ
  description : String
  compte : String
  mois : String
  trimestre : String
  annee : String
  categorieParent : Option String
  categorieEnfant : Option String
deriving DecidableEq

/-- Parse a run of decimal digits; `none` on an empty or non-digit run. -/
def parseNat? (cs : List Char) : Option Nat :=
  match cs with
  | [] => none
  | _ => cs.foldlM (fun acc c => if c.isDigit then some (acc * 10 + (c.toNat - 48)) else none) 0

/-- Split a character list on the dash character. -/
def splitOnDash : List Char → List (List Char)
  | [] => [[]]
  | c :: t =>
    if c = '-' then [] :: splitOnDash t
    else
      match splitOnDash t with
      | [] => [[c]]
      | h :: r => (c :: h) :: r

/-- Parse a `YYYY-MM-DD` date string as the polars `str.strptime` call of
`preprocess_transactions` does; `none` models the parse error that faults
the whole normalization pass. -/
def parseDate (s : String) : Option (Nat × Nat × Nat) :=
  match splitOnDash s.toList with
  | [ys, ms, ds] =>
    match parseNat? ys, parseNat? ms, parseNat? ds with
    | some y, some m, some d =>
      if 1 ≤ m && m ≤ 12 && 1 ≤ d && d ≤ 31 then some (y, m, d) else none
    | _, _, _ => none
  | _ => none

/-- Zero-pad a number to two digits (strftime `%m`). -/
def pad2 (n : Nat) : String :=
  if n < 10 then "0" ++ toString n else toString n

/-- Zero-pad a number to four digits (strftime `%Y`). -/
def pad4 (n : Nat) : String :=
  if n < 10 then "000" ++ toString n
  else if n < 100 then "00" ++ toString n
  else if n < 1000 then "0" ++ toString n
  else toString n

/-- Normalize one raw transaction into a `Row`: parse the date, derive
`mois` (strftime `%Y-%m`), `trimestre` (`year-Tquarter`), `annee`
(the year cast to a string) and the two category columns. -/
def mkRow (t : RawTx) : Except String Row :=
  match parseDate t.date with
  | none => Except.error ("could not parse date " ++ t.date)
  | some (y, m, d) =>
    Except.ok
      { dateN := y * 10000 + m * 100 + d
        nom := t.nom
        categorie := t.categorie
        montant := t.montant
        description := t.description
        compte := t.compte
        mois := pad4 y ++ "-" ++ pad2 m
        trimestre := toString y ++ "-T" ++ toString ((m + 2) / 3)
        annee := toString y
        categorieParent := categorieParentOf t.categorie
        categorieEnfant := categorieEnfantOf t.categorie }

/-- The normalization pass of `preprocess_transactions`: derive the columns
of every row, then sort by date descending. An unparseable date faults the
whole pass, and so does an empty input: `pl.DataFrame([])` has no columns,
so the very first `pl.col("date")` expression raises ColumnNotFoundError. -/
def preprocess_transactions (ts : List RawTx) : Except String (List Row) :=
  match ts with
  | [] => Except.error "ColumnNotFoundError: date"
  | _ => do
    let rows ← ts.mapM mkRow
    Except.ok (List.insertionSort (fun a b => b.dateN ≤ a.dateN) rows)

/-! ### Aggregation (`main` in app.py, lines 313 to 359) -/

/-- The period granularity selected in the sidebar. -/
inductive Periode where
  | mois
  | trimestre
  | annee
deriving DecidableEq

/-- The grouping level selected in the sidebar. -/
inductive Groupe where
  | parent
  | enfant
deriving DecidableEq

/-- The period column of a row for the chosen granularity
(`pl.col(periode)`). -/
def periodeVal : Periode → Row → String
  | Periode.mois, r => r.mois
  | Periode.trimestre, r => r.trimestre
  | Periode.annee, r => r.annee

/-- The category column of a row for the chosen grouping level
(`pl.col(f"categorie-{groupe}")`). -/
def groupeVal : Groupe → Row → Option String
  | Groupe.parent, r => r.categorieParent
  | Groupe.enfant, r => r.categorieEnfant

/-- The smoothing divisor (`facteur_lissage`): 1, 3 or 12 when smoothing is
on, depending on the granularity; 1 when smoothing is off. -/
def facteurLissage (lissage : Bool) (p : Periode) : ℚ :=
  if lissage then
    match p with
    | Periode.mois => 1
    | Periode.trimestre => 3
    | Periode.annee => 12
  else 1

/-- The sidebar category filter (app.py line 324): keep rows whose
`categorie-parent` is among the selected categories or is null. -/
def filterCategories (selected : List String) (df : List Row) : List Row :=
  df.filter (fun r =>
    match r.categorieParent with
    | none => true
    | some p => selected.contains p)

/-- The polars expression `pl.col("categorie-parent") != "Revenus"` used as
a filter: a null parent compares to null and so is dropped. -/
def isParentNotRevenus (r : Row) : Bool :=
  match r.categorieParent with
  | none => false
  | some p => decide (p ≠ "Revenus")

/-- The polars expression `pl.col("categorie-parent") == "Revenus"` used as
a filter: a null parent compares to null and so is dropped. -/
def isParentRevenus (r : Row) : Bool :=
  decide (r.categorieParent = some "Revenus")

/-- The polars sum of the `montant` column of a list of rows: null amounts
are ignored, exactly as `pl.col("montant").sum()` ignores them. -/
def montantSum (l : List Row) : ℚ :=
  (l.map (fun r => r.montant.getD 0)).sum

/-- The pie-chart base table `df_camembert` (app.py lines 330 to 331):
drop `Revenus` rows (and null parents, per polars `!=` on null), then keep
the one selected specific period. -/
def dfCamembert (df : List Row) (p : Periode) (ps : String) : List Row :=
  (df.filter isParentNotRevenus).filter (fun r => decide (periodeVal p r = ps))

/-- One row of the category breakdown `df_categories`: the group key and
the aggregated `montant`, which the `pl.when(...).then(...)` expression
leaves null when the group sum is non-negative. -/
structure CatRow where
  key : Option String
  montant : Option ℚ
deriving DecidableEq

/-- The category breakdown `df_categories` (app.py lines 333 to 335):
group `df_camembert` by the chosen category column; each group reports
`abs(sum) / facteur_lissage` when its signed sum is negative and a null
amount otherwise. Group keys are listed with duplicates removed; polars
does not promise any group order here. -/
def categoryBreakdown (df : List Row) (p : Periode) (ps : String) (g : Groupe)
    (facteur : ℚ) : List CatRow :=
  (((dfCamembert df p ps).map (groupeVal g)).dedup).map (fun k =>
    let s := montantSum ((dfCamembert df p ps).filter (fun r => decide (groupeVal g r = k)))
    { key := k, montant := if s < 0 then some (|s| / facteur) else none })

/-- One row of the period totals `df_totaux`. -/
structure TotRow where
  periode : String
  depenses : ℚ
  revenus : ℚ
  epargne : ℚ
deriving DecidableEq

/-- The aggregation of one period group of `df_totaux` (app.py lines 356
to 358): expenses sum the non-`Revenus` rows, income sums the `Revenus`
rows, savings sum every row; each is divided by the smoothing divisor. -/
def aggTotRow (facteur : ℚ) (key : String) (rows : List Row) : TotRow :=
  { periode := key
    depenses := montantSum (rows.filter isParentNotRevenus) / facteur
    revenus := montantSum (rows.filter isParentRevenus) / facteur
    epargne := montantSum rows / facteur }

/-- The period totals `df_totaux` (app.py lines 355 to 359): group the
filtered table by the period column, aggregate each group with
`aggTotRow`, and sort by the period key ascending. -/
def periodTotals (df : List Row) (p : Periode) (facteur : ℚ) : List TotRow :=
  (List.insertionSort (fun a b => a ≤ b) ((df.map (periodeVal p)).dedup)).map
    (fun k => aggTotRow facteur k (df.filter (fun r => decide (periodeVal p r = k))))

/-! ### Ledger fetch, Drive cache and ingestion (notion.py, drive.py) -/

/-- The properties of one page returned by the Ledger Source query, as read
by `get_transactions_from_notion`: each field mirrors the nested access in
the code. A `none` models an empty property object whose subscription
would raise; a list models a rich-text or title array. -/
structure NotionPage where
  dateStart : Option String
  nomTitle : List String
  categorieSelect : Option String
  montantNumber : Option ℚ
  descriptionRichText : List String
  compteSelect : Option String
deriving DecidableEq

/-- The mapping of one Ledger Source page into the raw transaction dict
(notion.py lines 211 to 218). Subscripting a missing date, an empty title,
an empty description rich-text array or a missing account select raises in
Python, modelled as `Except.error`; an unselected category and a null
amount are tolerated as null. -/
def mapNotionPage (p : NotionPage) : Except String RawTx :=
  match p.dateStart with
  | none => Except.error "TypeError: Date property is empty"
  | some date =>
    match p.nomTitle with
    | [] => Except.error "IndexError: Nom title is empty"
    | nom :: _ =>
      match p.descriptionRichText with
      | [] => Except.error "IndexError: Description rich_text is empty"
      | descr :: _ =>
        match p.compteSelect with
        | none => Except.error "TypeError: Compte select is empty"
        | some compte =>
          Except.ok
            { date := date
              nom := nom
              categorie := p.categorieSelect
              montant := p.montantNumber
              description := descr
              compte := compte }

/-- The outcome of one interaction with the Remote Cache Store, from the
point of view of `load_from_drive` and `save_to_drive`: the service
initialization may fail, the API call may raise, the file may be missing,
or the file may be found (carrying the cached table on the load side). -/
inductive DriveOutcome where
  | svcError (msg : String)
  | apiError (msg : String)
  | notFound
  | found (rows : List Row)
deriving DecidableEq

/-- `load_from_drive` (drive.py lines 104 to 141): every failure mode is
caught inside the function and yields `none`; only a found file yields the
parsed table. -/
def load_from_drive (o : DriveOutcome) : Option (List Row) :=
  match o with
  | DriveOutcome.svcError _ => none
  | DriveOutcome.apiError _ => none
  | DriveOutcome.notFound => none
  | DriveOutcome.found rows => some rows

/-- `load_transactions_from_csv` (notion.py lines 139 to 153): delegate to
`load_from_drive`, warning and returning `none` when no table comes back. -/
def load_transactions_from_csv (o : DriveOutcome) : Option (List Row) :=
  match load_from_drive o with
  | none => none
  | some rows => some rows

/-- `save_to_drive` (drive.py lines 37 to 102): every failure mode is
caught inside the function and yields `none`; otherwise the written file
id is returned (the file is created when missing, updated when found). -/
def save_to_drive (o : DriveOutcome) (fileId : String) : Option String :=
  match o with
  | DriveOutcome.svcError _ => none
  | DriveOutcome.apiError _ => none
  | DriveOutcome.notFound => some fileId
  | DriveOutcome.found _ => some fileId

/-- `get_transactions_from_notion` (notion.py lines 185 to 226). The
Ledger Source pagination is summarized by its outcome: either the
concatenated page results or the API error it raises. The function returns
the Python result (`Except.ok`) or the uncaught exception that escapes it
(`Except.error`), paired with whether the Ledger Source was queried. The
`save_to_drive` call site catches its own errors and its result is
discarded by the code. -/
def get_transactions_from_notion (forceReload : Bool) (drive : DriveOutcome)
    (ledger : Except String (List NotionPage)) (saveO : DriveOutcome) :
    Except String (Option (List Row)) × Bool :=
  if forceReload = false then
    (Except.ok (load_transactions_from_csv drive), false)
  else
    match ledger with
    | Except.error e => (Except.error e, true)
    | Except.ok pages =>
      match pages.mapM mapNotionPage with
      | Except.error e => (Except.error e, true)
      | Except.ok raws =>
        match preprocess_transactions raws with
        | Except.error e => (Except.error e, true)
        | Except.ok df =>
          let _fid := save_to_drive saveO "transactions.csv"
          (Except.ok (some df), true)

/-- A transaction fetched from the banking aggregator in the
non-interactive path (`get_transactions_from_woob`). -/
structure WoobTx where
  date : String
  nom : String
  categorie : Option String
  montant : ℚ
  description : String
  id : String
  compte : String
deriving DecidableEq

/-- The dedup filter of `send_transactions_to_notion` (notion.py line
129): keep the incoming records whose identifier is not already recorded. -/
def newTransactions (existing : List String) (txs : List WoobTx) : List WoobTx :=
  txs.filter (fun t => decide (t.id ∉ existing))

/-- `send_transaction_to_notion` (notion.py lines 91 to 115): one create
call whose network failure is caught inside the function and turned into
`none`. The success of each individual write is summarized by the
`writeOk` oracle. -/
def send_transaction_to_notion (writeOk : WoobTx → Bool) (t : WoobTx) : Option Unit :=
  if writeOk t then some () else none

/-- The write loop of `send_transactions_to_notion` (notion.py lines 132
to 135): attempt one write per record in order, counting the successes;
a failed write never stops the loop. Returns the success count and the
list of attempted writes. -/
def sendLoop (writeOk : WoobTx → Bool) : List WoobTx → Nat × List WoobTx
  | [] => (0, [])
  | t :: rest =>
    let s := if (send_transaction_to_notion writeOk t).isSome then 1 else 0
    let p := sendLoop writeOk rest
    (s + p.1, t :: p.2)

/-- `send_transactions_to_notion` (notion.py lines 117 to 137): filter the
incoming records against the already-recorded identifiers, then run the
write loop and report the aggregate success count. -/
def send_transactions_to_notion (existing : List String) (txs : List WoobTx)
    (writeOk : WoobTx → Bool) : Nat :=
  (sendLoop writeOk (newTransactions existing txs)).1


/-! ### Concrete tables used by the end-to-end and corrective theorems -/

/-- The three raw transactions of the end-to-end example. -/
def c1raw : List RawTx :=
  [ { date := "2024-01-05", nom := "courses", categorie := some "Quotidien",
      montant := some (-20), description := "", compte := "PERSO" },
    { date := "2024-01-20", nom := "courses", categorie := some "Quotidien",
      montant := some (-10), description := "", compte := "PERSO" },
    { date := "2024-01-10", nom := "salaire", categorie := some "Revenus",
      montant := some 1000, description := "", compte := "PERSO" } ]

/-- The normalized table produced from `c1raw` (date descending). -/
def c1rows : List Row :=
  [ { dateN := 20240120, nom := "courses", categorie := some "Quotidien",
      montant := some (-10), description := "", compte := "PERSO",
      mois := "2024-01", trimestre := "2024-T1", annee := "2024",
      categorieParent := some "Quotidien", categorieEnfant := some "Quotidien" },
    { dateN := 20240110, nom := "salaire", categorie := some "Revenus",
      montant := some 1000, description := "", compte := "PERSO",
      mois := "2024-01", trimestre := "2024-T1", annee := "2024",
      categorieParent := some "Revenus", categorieEnfant := some "Revenus" },
    { dateN := 20240105, nom := "courses", categorie := some "Quotidien",
      montant := some (-20), description := "", compte := "PERSO",
      mois := "2024-01", trimestre := "2024-T1", annee := "2024",
      categorieParent := some "Quotidien", categorieEnfant := some "Quotidien" } ]

/-- A table whose single category group has the positive signed sum 50. -/
def c2df : List Row :=
  [ { dateN := 20240105, nom := "remboursement", categorie := some "Quotidien",
      montant := some 30, description := "", compte := "PERSO",
      mois := "2024-01", trimestre := "2024-T1", annee := "2024",
      categorieParent := some "Quotidien", categorieEnfant := some "Quotidien" },
    { dateN := 20240106, nom := "remboursement", categorie := some "Quotidien",
      montant := some 20, description := "", compte := "PERSO",
      mois := "2024-01", trimestre := "2024-T1", annee := "2024",
      categorieParent := some "Quotidien", categorieEnfant := some "Quotidien" } ]

/-- A row with a null `categorie-parent`. -/
def c10row : Row :=
  { dateN := 20240107, nom := "virement", categorie := none,
    montant := some 5, description := "", compte := "PERSO",
    mois := "2024-01", trimestre := "2024-T1", annee := "2024",
    categorieParent := none, categorieEnfant := none }

/-- A table containing a null-parent row next to a categorized row. -/
def c10df : List Row :=
  [ c10row,
    { dateN := 20240105, nom := "courses", categorie := some "Quotidien",
      montant := some (-20), description := "", compte := "PERSO",
      mois := "2024-01", trimestre := "2024-T1", annee := "2024",
      categorieParent := some "Quotidien", categorieEnfant := some "Quotidien" } ]

/-- A Ledger Source page with an unselected category and an empty
description rich-text array. -/
def c9page : NotionPage :=
  { dateStart := some "2024-01-05", nomTitle := ["courses"],
    categorieSelect := none, montantNumber := some (-20),
    descriptionRichText := [], compteSelect := some "PERSO" }

/-- A Ledger Source page with an unselected category whose other fields
are all present. -/
def c9okpage : NotionPage :=
  { dateStart := some "2024-01-05", nomTitle := ["courses"],
    categorieSelect := none, montantNumber := some (-20),
    descriptionRichText := [""], compteSelect := some "PERSO" }

/-- The normalized row that a forced reload derives from `c9okpage`. -/
def c4row : Row :=
  { dateN := 20240105, nom := "courses", categorie := none,
    montant := some (-20), description := "", compte := "PERSO",
    mois := "2024-01", trimestre := "2024-T1", annee := "2024",
    categorieParent := none, categorieEnfant := none }

/-- An incoming banking record whose identifier is already recorded. -/
def c6txA : WoobTx :=
  { date := "2024-01-01", nom := "courses", categorie := none, montant := -5,
    description := "", id := "A", compte := "PERSO" }

/-- An incoming banking record whose identifier is new. -/
def c6txC : WoobTx :=
  { date := "2024-01-02", nom := "courses", categorie := none, montant := -7,
    description := "", id := "C", compte := "PERSO" }

/-! ### Characterization of the split: head and last element -/

theorem hasSep_cons (c : Char) (t : List Char)
    (hpat : ∀ t2, c = ' ' → t = '>' :: ' ' :: t2 → False) :
    hasSep (c :: t) = hasSep t := by
  rw [hasSep]
  exact hpat

theorem splitChars_cons (c : Char) (t : List Char)
    (hpat : ∀ t2, c = ' ' → t = '>' :: ' ' :: t2 → False) :
    splitChars (c :: t) =
      match splitChars t with
      | [] => [[c]]
      | h :: r => (c :: h) :: r := by
  rw [splitChars]
  exact hpat

theorem splitChars_ne_nil (l : List Char) : splitChars l ≠ [] := by
  induction l using splitChars.induct with
  | case1 t ih => simp [splitChars]
  | case2 c t hpat hs => simp [splitChars, hs]
  | case3 c t hpat h r hs ih => simp [splitChars, hs]
  | case4 => simp [splitChars]

/-- The first piece of the split is exactly the text before the first
occurrence of the separator. -/
theorem headD_splitChars (l : List Char) : (splitChars l).headD [] = beforeFirst l := by
  induction l using splitChars.induct with
  | case1 t ih => simp [splitChars, beforeFirst]
  | case2 c t hpat hs => exact absurd hs (splitChars_ne_nil t)
  | case3 c t hpat h r hs ih =>
    rw [hs] at ih
    simp only [List.headD] at ih
    simp [splitChars, beforeFirst, hs, hpat, ih]
  | case4 => simp [splitChars, beforeFirst]

/-- A list without the separator splits into a single piece, itself. -/
theorem splitChars_of_hasSep_eq_false {l : List Char} (hl : hasSep l = false) :
    splitChars l = [l] := by
  induction l using splitChars.induct with
  | case1 t ih => simp [hasSep] at hl
  | case2 c t hpat hs => exact absurd hs (splitChars_ne_nil t)
  | case3 c t hpat h r hs ih =>
    rw [hasSep_cons c t hpat] at hl
    have ha := ih hl
    rw [hs] at ha
    simp only [List.cons.injEq] at ha
    rw [splitChars_cons c t hpat, hs]
    simp [ha.1, ha.2]
  | case4 => simp [splitChars]

/-- A list containing the separator splits into at least two pieces. -/
theorem two_le_length_splitChars {l : List Char} (hl : hasSep l = true) :
    2 ≤ (splitChars l).length := by
  induction l using splitChars.induct with
  | case1 t ih =>
    have h1 : 0 < (splitChars t).length := List.length_pos.mpr (splitChars_ne_nil _)
    simp [splitChars]
    omega
  | case2 c t hpat hs => exact absurd hs (splitChars_ne_nil t)
  | case3 c t hpat h r hs ih =>
    rw [hasSep_cons c t hpat] at hl
    have h2 := ih hl
    rw [hs] at h2
    rw [splitChars_cons c t hpat, hs]
    show 2 ≤ ((c :: h) :: r).length
    simp only [List.length_cons] at h2 ⊢
    omega
  | case4 => simp [hasSep] at hl

/-- The last piece of the split is exactly the text after the last
(non-overlapping) occurrence of the separator. -/
theorem getLastD_splitChars (l : List Char) : (splitChars l).getLastD [] = afterLast l := by
  induction l using splitChars.induct with
  | case1 t ih =>
    show ([] :: splitChars t).getLastD [] = afterLast t
    cases hs : splitChars t with
    | nil => exact absurd hs (splitChars_ne_nil t)
    | cons a b =>
      rw [hs] at ih
      rw [List.getLastD_cons]
      exact ih
  | case2 c t hpat hs => exact absurd hs (splitChars_ne_nil t)
  | case3 c t hpat h r hs ih =>
    rw [splitChars_cons c t hpat, hs]
    show ((c :: h) :: r).getLastD [] = afterLast (c :: t)
    have hA : afterLast (c :: t) = if hasSep t then afterLast t else c :: t := by
      rw [afterLast]
      exact hpat
    rw [hA]
    rw [hs] at ih
    cases r with
    | nil =>
      by_cases ht : hasSep t = true
      · have h2 := two_le_length_splitChars ht
        rw [hs] at h2
        simp at h2
      · simp only [Bool.not_eq_true] at ht
        have h3 := splitChars_of_hasSep_eq_false ht
        rw [hs] at h3
        simp only [List.cons.injEq] at h3
        simp [ht, h3.1]
    | cons x y =>
      have ht : hasSep t = true := by
        by_contra hc2
        simp only [Bool.not_eq_true] at hc2
        have h3 := splitChars_of_hasSep_eq_false hc2
        rw [hs] at h3
        simp at h3
      rw [if_pos ht, ← ih]
      simp only [List.getLastD_cons]
  | case4 => simp [splitChars, afterLast]

theorem headD_map_mk (l : List (List Char)) (hne : l ≠ []) (d : String) :
    (l.map String.mk).headD d = String.mk (l.headD []) := by
  cases l with
  | nil => exact absurd rfl hne
  | cons a b => rfl

theorem getLastD_map_mk (l : List (List Char)) (d : List Char) :
    (l.map String.mk).getLastD (String.mk d) = String.mk (l.getLastD d) := by
  induction l generalizing d with
  | nil => rfl
  | cons x y ih =>
    simp only [List.map_cons, List.getLastD_cons]
    exact ih x

/-- The `categorie-parent` column of a present category is the text before
the first separator. -/
theorem categorieParentOf_some (s : String) :
    categorieParentOf (some s) = some (String.mk (beforeFirst s.toList)) := by
  cases s with
  | mk d =>
    show some (((splitChars d).map String.mk).headD (String.mk d)) = _
    cases hs : splitChars d with
    | nil => exact absurd hs (splitChars_ne_nil d)
    | cons a b =>
      have h1 := headD_splitChars d
      rw [hs] at h1
      simp only [List.headD_cons] at h1
      simp only [List.map_cons, List.headD_cons]
      rw [h1]
      rfl

/-- The `categorie-enfant` column of a present category is the text after
the last separator. -/
theorem categorieEnfantOf_some (s : String) :
    categorieEnfantOf (some s) = some (String.mk (afterLast s.toList)) := by
  cases s with
  | mk d =>
    show some (((splitChars d).map String.mk).getLastD (String.mk d)) = _
    rw [getLastD_map_mk]
    cases hs : splitChars d with
    | nil => exact absurd hs (splitChars_ne_nil d)
    | cons a b =>
      have h1 := getLastD_splitChars d
      rw [hs] at h1
      rw [List.getLastD_cons] at h1 ⊢
      rw [h1]
      rfl

theorem beforeFirst_of_hasSep_eq_false {l : List Char} (hl : hasSep l = false) :
    beforeFirst l = l := by
  have h1 := headD_splitChars l
  rw [splitChars_of_hasSep_eq_false hl] at h1
  simpa using h1.symm

theorem afterLast_of_hasSep_eq_false {l : List Char} (hl : hasSep l = false) :
    afterLast l = l := by
  have h1 := getLastD_splitChars l
  rw [splitChars_of_hasSep_eq_false hl] at h1
  simpa using h1.symm


/-! ### Aggregation helper lemmas -/

theorem montantSum_cons (x : Row) (t : List Row) :
    montantSum (x :: t) = x.montant.getD 0 + montantSum t := by
  simp [montantSum]

theorem periodTotals_map_periode (df : List Row) (p : Periode) (f : ℚ) :
    (periodTotals df p f).map TotRow.periode =
      List.insertionSort (fun a b => a ≤ b) ((df.map (periodeVal p)).dedup) := by
  unfold periodTotals
  rw [List.map_map]
  have h1 : (TotRow.periode ∘ fun k =>
      aggTotRow f k (df.filter fun r => decide (periodeVal p r = k))) = id := by
    funext k
    rfl
  rw [h1, List.map_id]

theorem breakdown_map_key (df : List Row) (p : Periode) (ps : String) (g : Groupe) (f : ℚ) :
    (categoryBreakdown df p ps g f).map CatRow.key =
      ((dfCamembert df p ps).map (groupeVal g)).dedup := by
  unfold categoryBreakdown
  rw [List.map_map]
  have h1 : (CatRow.key ∘ fun k =>
      let s := montantSum ((dfCamembert df p ps).filter (fun r => decide (groupeVal g r = k)))
      ({ key := k, montant := if s < 0 then some (|s| / f) else none } : CatRow)) = id := by
    funext k
    rfl
  rw [h1, List.map_id]

/-- Every row falls in exactly one of the three classes the totals use:
parent present and distinct from `Revenus`, parent equal to `Revenus`,
or parent null; the amount sum splits accordingly. -/
theorem montantSum_partition (l : List Row) :
    montantSum l =
      montantSum (l.filter isParentNotRevenus) + montantSum (l.filter isParentRevenus) +
        montantSum (l.filter (fun x => decide (x.categorieParent = none))) := by
  induction l with
  | nil => simp [montantSum]
  | cons x t ih =>
    rcases hx : x.categorieParent with _ | q
    · rw [List.filter_cons, List.filter_cons, List.filter_cons]
      have h1 : isParentNotRevenus x = false := by simp [isParentNotRevenus, hx]
      have h2 : isParentRevenus x = false := by simp [isParentRevenus, hx]
      have h3 : decide (x.categorieParent = none) = true := by simp [hx]
      rw [h1, h2, h3]
      simp only [Bool.false_eq_true, if_false, if_true]
      rw [montantSum_cons, montantSum_cons, ih]
      ring
    · by_cases hq : q = "Revenus"
      · rw [List.filter_cons, List.filter_cons, List.filter_cons]
        have h1 : isParentNotRevenus x = false := by simp [isParentNotRevenus, hx, hq]
        have h2 : isParentRevenus x = true := by simp [isParentRevenus, hx, hq]
        have h3 : decide (x.categorieParent = none) = false := by simp [hx]
        rw [h1, h2, h3]
        simp only [Bool.false_eq_true, if_false, if_true]
        rw [montantSum_cons, montantSum_cons, ih]
        ring
      · rw [List.filter_cons, List.filter_cons, List.filter_cons]
        have h1 : isParentNotRevenus x = true := by simp [isParentNotRevenus, hx, hq]
        have h2 : isParentRevenus x = false := by simp [isParentRevenus, hx, hq]
        have h3 : decide (x.categorieParent = none) = false := by simp [hx]
        rw [h1, h2, h3]
        simp only [Bool.false_eq_true, if_false, if_true]
        rw [montantSum_cons, montantSum_cons, ih]
        ring

/-- The pie-chart base table never depends on the null-parent rows: its
first filter already drops them. -/
theorem dfCamembert_drop_null (df : List Row) (p : Periode) (ps : String) :
    dfCamembert df p ps =
      dfCamembert (df.filter (fun x => decide (x.categorieParent ≠ none))) p ps := by
  unfold dfCamembert
  have h1 : df.filter isParentNotRevenus =
      (df.filter (fun x => decide (x.categorieParent ≠ none))).filter isParentNotRevenus := by
    rw [List.filter_filter]
    apply List.filter_congr
    intro x hx
    rcases hq : x.categorieParent with _ | q
    · simp [isParentNotRevenus, hq]
    · simp [isParentNotRevenus, hq]
  rw [h1]

/-! ### Claim theorems -/

/-- C1: for the input table of the three transactions
(-20, Quotidien, 2024-01-05), (-10, Quotidien, 2024-01-20),
(+1000, Revenus, 2024-01-10), aggregating by month with smoothing off
produces exactly one period-totals row
(month 2024-01, depenses -30, revenus 1000, epargne 970), and the
parent-level category breakdown for that month maps Quotidien to the
amount 30. -/
theorem C1_end_to_end_month_aggregation :
    preprocess_transactions c1raw = Except.ok c1rows ∧
    periodTotals c1rows Periode.mois (facteurLissage false Periode.mois) =
      [{ periode := "2024-01", depenses := -30, revenus := 1000, epargne := 970 }] ∧
    categoryBreakdown c1rows Periode.mois "2024-01" Groupe.parent
        (facteurLissage false Periode.mois) =
      [{ key := some "Quotidien", montant := some 30 }] := by
  refine ⟨by with_unfolding_all rfl, by with_unfolding_all rfl, by with_unfolding_all rfl⟩

/-- C2, counterexample: a category group whose raw signed sum is +50 is
not absent from the breakdown result, contrary to the claim: the group
row is present, carrying a null amount. -/
theorem C2_counterexample_positive_group_present :
    montantSum (dfCamembert c2df Periode.mois "2024-01") = 50 ∧
    some "Quotidien" ∈ (categoryBreakdown c2df Periode.mois "2024-01" Groupe.parent
      (facteurLissage false Periode.mois)).map CatRow.key ∧
    categoryBreakdown c2df Periode.mois "2024-01" Groupe.parent
        (facteurLissage false Periode.mois) =
      [{ key := some "Quotidien", montant := none }] := by
  refine ⟨by with_unfolding_all rfl, ?_, by with_unfolding_all rfl⟩
  have h : (categoryBreakdown c2df Periode.mois "2024-01" Groupe.parent
      (facteurLissage false Periode.mois)).map CatRow.key = [some "Quotidien"] := by
    with_unfolding_all rfl
  rw [h]
  simp

/-- C2, amended: the breakdown is computed over the rows of the one
selected specific period, excluding `Revenus` (and null-parent) rows,
grouped by the chosen category column with one entry per distinct group;
a group whose raw signed sum is negative carries the absolute value of
that sum divided by the smoothing divisor, and a group whose raw signed
sum is non-negative still appears, carrying a null amount instead of
being dropped. -/
theorem C2_category_breakdown_spec (df : List Row) (p : Periode) (ps : String) (g : Groupe)
    (lissage : Bool) :
    (∀ r, r ∈ dfCamembert df p ps ↔
      r ∈ df ∧ isParentNotRevenus r = true ∧ periodeVal p r = ps) ∧
    ((categoryBreakdown df p ps g (facteurLissage lissage p)).map CatRow.key).Nodup ∧
    (∀ k, k ∈ (categoryBreakdown df p ps g (facteurLissage lissage p)).map CatRow.key ↔
      ∃ r, r ∈ dfCamembert df p ps ∧ groupeVal g r = k) ∧
    (∀ c, c ∈ categoryBreakdown df p ps g (facteurLissage lissage p) →
      (montantSum ((dfCamembert df p ps).filter (fun r => decide (groupeVal g r = c.key))) < 0 →
        c.montant = some (|montantSum ((dfCamembert df p ps).filter
          (fun r => decide (groupeVal g r = c.key)))| / facteurLissage lissage p)) ∧
      (0 ≤ montantSum ((dfCamembert df p ps).filter (fun r => decide (groupeVal g r = c.key))) →
        c.montant = none)) := by
  refine ⟨?_, ?_, ?_, ?_⟩
  · intro r
    unfold dfCamembert
    rw [List.mem_filter, List.mem_filter]
    simp [and_assoc]
  · rw [breakdown_map_key]
    exact List.nodup_dedup _
  · intro k
    rw [breakdown_map_key, List.mem_dedup, List.mem_map]
  · intro c hc
    unfold categoryBreakdown at hc
    rw [List.mem_map] at hc
    obtain ⟨k, hk, rfl⟩ := hc
    by_cases hs : montantSum ((dfCamembert df p ps).filter
        (fun r => decide (groupeVal g r = k))) < 0
    · constructor
      · intro h2
        simp only [hs, if_pos]
      · intro h2
        exact absurd hs (not_lt.mpr h2)
    · constructor
      · intro h2
        exact absurd h2 hs
      · intro h2
        simp only [if_neg hs]

/-- Witness for the amended C2: on the end-to-end table, the Quotidien
group sums to -30 and its breakdown entry carries 30 divided by the
divisor. -/
theorem C2_category_breakdown_spec_witness :
    ({ key := some "Quotidien", montant := some 30 } : CatRow) ∈
      categoryBreakdown c1rows Periode.mois "2024-01" Groupe.parent
        (facteurLissage false Periode.mois) ∧
    montantSum ((dfCamembert c1rows Periode.mois "2024-01").filter
      (fun r => decide (groupeVal Groupe.parent r = some "Quotidien"))) < 0 ∧
    ({ key := some "Quotidien", montant := some 30 } : CatRow).montant =
      some (|montantSum ((dfCamembert c1rows Periode.mois "2024-01").filter
        (fun r => decide (groupeVal Groupe.parent r = some "Quotidien")))| /
          facteurLissage false Periode.mois) := by
  have hmem : ({ key := some "Quotidien", montant := some 30 } : CatRow) ∈
      categoryBreakdown c1rows Periode.mois "2024-01" Groupe.parent
        (facteurLissage false Periode.mois) := by
    have h : categoryBreakdown c1rows Periode.mois "2024-01" Groupe.parent
        (facteurLissage false Periode.mois) =
        [{ key := some "Quotidien", montant := some 30 }] := by
      with_unfolding_all rfl
    rw [h]
    exact List.mem_singleton_self _
  have hneg : montantSum ((dfCamembert c1rows Periode.mois "2024-01").filter
      (fun r => decide (groupeVal Groupe.parent r = some "Quotidien"))) < 0 := by
    have h : montantSum ((dfCamembert c1rows Periode.mois "2024-01").filter
        (fun r => decide (groupeVal Groupe.parent r = some "Quotidien"))) = -30 := by
      with_unfolding_all rfl
    rw [h]
    norm_num
  exact ⟨hmem, hneg,
    ((C2_category_breakdown_spec c1rows Periode.mois "2024-01" Groupe.parent false).2.2.2
      _ hmem).1 hneg⟩

/-- C3: for every filtered table, the period totals have one row per
distinct period value present in the table, ordered by the period key
ascending; depenses is the raw signed sum of amounts over the rows of the
period whose categorie-parent is present and distinct from Revenus,
revenus the sum over the rows whose categorie-parent equals Revenus,
epargne the sum of every amount of the period, each divided by the
smoothing divisor; the divisor is 1 for month, 3 for quarter and 12 for
year when smoothing is requested, and 1 otherwise. -/
theorem C3_period_totals_spec (df : List Row) (p : Periode) (lissage : Bool) :
    (facteurLissage lissage p =
      if lissage then
        (match p with
         | Periode.mois => (1 : ℚ)
         | Periode.trimestre => 3
         | Periode.annee => 12)
      else 1) ∧
    List.Sorted (fun a b => a ≤ b)
      ((periodTotals df p (facteurLissage lissage p)).map TotRow.periode) ∧
    ((periodTotals df p (facteurLissage lissage p)).map TotRow.periode).Nodup ∧
    (∀ k : String,
      k ∈ (periodTotals df p (facteurLissage lissage p)).map TotRow.periode ↔
        ∃ r, r ∈ df ∧ periodeVal p r = k) ∧
    (∀ t, t ∈ periodTotals df p (facteurLissage lissage p) →
      t.depenses = montantSum ((df.filter (fun r => decide (periodeVal p r = t.periode))).filter
          isParentNotRevenus) / facteurLissage lissage p ∧
      t.revenus = montantSum ((df.filter (fun r => decide (periodeVal p r = t.periode))).filter
          isParentRevenus) / facteurLissage lissage p ∧
      t.epargne = montantSum (df.filter (fun r => decide (periodeVal p r = t.periode))) /
        facteurLissage lissage p) := by
  refine ⟨rfl, ?_, ?_, ?_, ?_⟩
  · rw [periodTotals_map_periode]
    exact List.sorted_insertionSort _ _
  · rw [periodTotals_map_periode]
    exact ((List.perm_insertionSort _ _).nodup_iff).mpr (List.nodup_dedup _)
  · intro k
    rw [periodTotals_map_periode, List.mem_insertionSort, List.mem_dedup, List.mem_map]
  · intro t ht
    unfold periodTotals at ht
    rw [List.mem_map] at ht
    obtain ⟨k, hk, rfl⟩ := ht
    exact ⟨rfl, rfl, rfl⟩

/-- Witness for C3: the single period row of the end-to-end table
satisfies the depenses equation. -/
theorem C3_period_totals_spec_witness :
    ({ periode := "2024-01", depenses := -30, revenus := 1000, epargne := 970 } : TotRow) ∈
      periodTotals c1rows Periode.mois (facteurLissage false Periode.mois) ∧
    ({ periode := "2024-01", depenses := -30, revenus := 1000, epargne := 970 } : TotRow).depenses =
      montantSum ((c1rows.filter (fun r => decide (periodeVal Periode.mois r = "2024-01"))).filter
        isParentNotRevenus) / facteurLissage false Periode.mois := by
  have hmem : ({ periode := "2024-01", depenses := -30, revenus := 1000, epargne := 970 } :
      TotRow) ∈ periodTotals c1rows Periode.mois (facteurLissage false Periode.mois) := by
    have h : periodTotals c1rows Periode.mois (facteurLissage false Periode.mois) =
        [{ periode := "2024-01", depenses := -30, revenus := 1000, epargne := 970 }] := by
      with_unfolding_all rfl
    rw [h]
    exact List.mem_singleton_self _
  exact ⟨hmem, ((C3_period_totals_spec c1rows Periode.mois false).2.2.2.2 _ hmem).1⟩

/-- C10: a row with a null categorie-parent passes the sidebar category
filter; in every period row of the totals its amount is counted in
epargne but in neither depenses nor revenus, so epargne equals
depenses + revenus + the null-parent amounts of the period divided by
the divisor; and the category breakdown is unchanged when the null-parent
rows are removed from the table. -/
theorem C10_null_parent_spec (df : List Row) (selected : List String) (p : Periode)
    (ps : String) (g : Groupe) (lissage : Bool) (r : Row)
    (hr : r ∈ df) (hnull : r.categorieParent = none) :
    r ∈ filterCategories selected df ∧
    (∀ t, t ∈ periodTotals df p (facteurLissage lissage p) →
      t.epargne = t.depenses + t.revenus +
        montantSum ((df.filter (fun x => decide (periodeVal p x = t.periode))).filter
          (fun x => decide (x.categorieParent = none))) / facteurLissage lissage p) ∧
    categoryBreakdown df p ps g (facteurLissage lissage p) =
      categoryBreakdown (df.filter (fun x => decide (x.categorieParent ≠ none))) p ps g
        (facteurLissage lissage p) := by
  refine ⟨?_, ?_, ?_⟩
  · unfold filterCategories
    rw [List.mem_filter]
    refine ⟨hr, ?_⟩
    rw [hnull]
  · intro t ht
    unfold periodTotals at ht
    rw [List.mem_map] at ht
    obtain ⟨k, hk, rfl⟩ := ht
    show montantSum (df.filter fun x => decide (periodeVal p x = k)) / facteurLissage lissage p = _
    rw [montantSum_partition (df.filter fun x => decide (periodeVal p x = k)), add_div, add_div]
    rfl
  · unfold categoryBreakdown
    rw [← dfCamembert_drop_null]

/-- Witness for C10: the concrete null-parent row is in the table and
passes the category filter. -/
theorem C10_null_parent_spec_witness :
    c10row ∈ c10df ∧ c10row.categorieParent = none ∧
    c10row ∈ filterCategories ["Quotidien"] c10df := by
  have hr : c10row ∈ c10df := List.mem_cons_self _ _
  exact ⟨hr, rfl,
    (C10_null_parent_spec c10df ["Quotidien"] Periode.mois "2024-01" Groupe.parent false
      c10row hr rfl).1⟩

/-- C4: the claim says every network/API error while talking to the
Ledger Source or the Remote Cache Store during the fetch is caught at the
call site and turned into None. The code does so on the snapshot-read
path (first conjunct) and on the cache write, whose failure during a
forced reload over one well-formed page is swallowed (second conjunct),
but an error raised by the Ledger Source query loop during a forced
reload propagates out of the function uncaught, contradicting the
docstring of `get_transactions_from_notion` (None en cas de erreur): the
third conjunct evaluates the code at the failing input. -/
theorem C4_ledger_error_propagates :
    get_transactions_from_notion false (DriveOutcome.apiError "network error")
        (Except.ok []) DriveOutcome.notFound = (Except.ok none, false) ∧
    get_transactions_from_notion true (DriveOutcome.found [])
        (Except.ok [c9okpage]) (DriveOutcome.apiError "network error") =
      (Except.ok (some [c4row]), true) ∧
    get_transactions_from_notion true (DriveOutcome.found [])
        (Except.error "APIResponseError") DriveOutcome.notFound =
      (Except.error "APIResponseError", true) :=
  ⟨rfl, by with_unfolding_all rfl, rfl⟩

/-- C5: with force_reload false the function returns the snapshot read
(None when the snapshot is absent) and the Ledger Source is never
queried; the Ledger Source is queried exactly on the force_reload true
path. -/
theorem C5_cache_first_no_fallback (drive : DriveOutcome)
    (ledger : Except String (List NotionPage)) (saveO : DriveOutcome) :
    get_transactions_from_notion false drive ledger saveO =
      (Except.ok (load_transactions_from_csv drive), false) ∧
    (drive = DriveOutcome.notFound →
      get_transactions_from_notion false drive ledger saveO = (Except.ok none, false)) ∧
    (∀ fr, (get_transactions_from_notion fr drive ledger saveO).2 = true ↔ fr = true) := by
  refine ⟨rfl, ?_, ?_⟩
  · intro h
    subst h
    rfl
  · intro fr
    cases fr
    · simp [get_transactions_from_notion]
    · cases ledger with
      | error e => simp [get_transactions_from_notion]
      | ok pages =>
        have heq : get_transactions_from_notion true drive (Except.ok pages) saveO =
            (match pages.mapM mapNotionPage with
             | Except.error e => (Except.error e, true)
             | Except.ok raws =>
               match preprocess_transactions raws with
               | Except.error e => (Except.error e, true)
               | Except.ok df => (Except.ok (some df), true)) := rfl
        rw [heq]
        rcases hm2 : pages.mapM mapNotionPage with e | raws
        · simp [hm2]
        · rcases hp : preprocess_transactions raws with e2 | dfr <;> simp [hm2, hp]

/-- Witness for C5: an absent snapshot with force_reload false yields
None without touching the Ledger Source. -/
theorem C5_cache_first_no_fallback_witness :
    DriveOutcome.notFound = DriveOutcome.notFound ∧
    get_transactions_from_notion false DriveOutcome.notFound (Except.ok [])
      DriveOutcome.notFound = (Except.ok none, false) :=
  ⟨rfl, (C5_cache_first_no_fallback DriveOutcome.notFound (Except.ok [])
    DriveOutcome.notFound).2.1 rfl⟩

/-- C6: in the non-interactive ingestion path a record is submitted for
creation exactly when its dedup identifier is not among those already
recorded; with existing identifiers A and B and incoming identifiers A
and C, only the record with identifier C is submitted. -/
theorem C6_dedup_spec (existing : List String) (txs : List WoobTx) (writeOk : WoobTx → Bool) :
    (∀ t, t ∈ (sendLoop writeOk (newTransactions existing txs)).2 ↔
      t ∈ txs ∧ t.id ∉ existing) ∧
    ((sendLoop writeOk (newTransactions ["A", "B"] [c6txA, c6txC])).2.map WoobTx.id = ["C"]) := by
  have hAtt : ∀ l, (sendLoop writeOk l).2 = l := by
    intro l
    induction l with
    | nil => rfl
    | cons x y ih => simp [sendLoop, ih]
  constructor
  · intro t
    rw [hAtt]
    unfold newTransactions
    rw [List.mem_filter]
    simp
  · rw [hAtt]
    decide

/-- Witness for C6: the dedup characterization instantiated on the
concrete identifier sets A, B versus A, C. -/
theorem C6_dedup_spec_witness :
    ∀ t, t ∈ (sendLoop (fun _ => true) (newTransactions ["A", "B"] [c6txA, c6txC])).2 ↔
      t ∈ [c6txA, c6txC] ∧ t.id ∉ ["A", "B"] :=
  (C6_dedup_spec ["A", "B"] [c6txA, c6txC] (fun _ => true)).1

/-- C7: the write loop attempts one create call per deduplicated record,
a failed write never stops the remaining writes, and the reported
aggregate equals the number of writes that succeeded, at most the number
of new records. -/
theorem C7_write_loop_spec (existing : List String) (txs : List WoobTx)
    (writeOk : WoobTx → Bool) :
    (sendLoop writeOk (newTransactions existing txs)).2 = newTransactions existing txs ∧
    send_transactions_to_notion existing txs writeOk =
      ((newTransactions existing txs).filter writeOk).length ∧
    send_transactions_to_notion existing txs writeOk ≤ (newTransactions existing txs).length := by
  have hAtt : ∀ l, (sendLoop writeOk l).2 = l := by
    intro l
    induction l with
    | nil => rfl
    | cons x y ih => simp [sendLoop, ih]
  have hCnt : ∀ l, (sendLoop writeOk l).1 = (l.filter writeOk).length := by
    intro l
    induction l with
    | nil => rfl
    | cons x y ih =>
      by_cases hw : writeOk x
      · simp [sendLoop, send_transaction_to_notion, hw, List.filter, ih]
        omega
      · simp [sendLoop, send_transaction_to_notion, hw, List.filter, ih]
  refine ⟨hAtt _, hCnt _, ?_⟩
  unfold send_transactions_to_notion
  rw [hCnt]
  exact List.length_filter_le _ _

/-- Witness for C7: with one failing write out of two new records the
loop still attempts both and reports one success. -/
theorem C7_write_loop_spec_witness :
    (sendLoop (fun t => decide (t.id = "C")) (newTransactions [] [c6txA, c6txC])).2 =
      newTransactions [] [c6txA, c6txC] ∧
    send_transactions_to_notion [] [c6txA, c6txC] (fun t => decide (t.id = "C")) =
      ((newTransactions [] [c6txA, c6txC]).filter (fun t => decide (t.id = "C"))).length ∧
    send_transactions_to_notion [] [c6txA, c6txC] (fun t => decide (t.id = "C")) ≤
      (newTransactions [] [c6txA, c6txC]).length :=
  C7_write_loop_spec [] [c6txA, c6txC] (fun t => decide (t.id = "C"))

/-- C8: for every normalized row, a null category yields null parent and
child; a category without the separator yields the whole string as both
parent and child; a category containing the separator yields the text
before the first separator as parent and the text after the last
separator as child. -/
theorem C8_category_split_spec (c : Option String) :
    (c = none → categorieParentOf c = none ∧ categorieEnfantOf c = none) ∧
    (∀ s, c = some s →
      categorieParentOf c = some (String.mk (beforeFirst s.toList)) ∧
      categorieEnfantOf c = some (String.mk (afterLast s.toList))) ∧
    (∀ s, c = some s → hasSep s.toList = false →
      categorieParentOf c = some s ∧ categorieEnfantOf c = some s) := by
  refine ⟨fun h => ?_, fun s h => ?_, fun s h hsep => ?_⟩
  · subst h
    exact ⟨rfl, rfl⟩
  · subst h
    exact ⟨categorieParentOf_some s, categorieEnfantOf_some s⟩
  · subst h
    rw [categorieParentOf_some s, categorieEnfantOf_some s,
      beforeFirst_of_hasSep_eq_false hsep, afterLast_of_hasSep_eq_false hsep]
    cases s with
    | mk d => exact ⟨rfl, rfl⟩

/-- Witness for C8: the concrete categories of the specification. -/
theorem C8_category_split_spec_witness :
    categorieParentOf (some "Loisirs > Cinéma") = some "Loisirs" ∧
    categorieEnfantOf (some "Loisirs > Cinéma") = some "Cinéma" ∧
    categorieParentOf (some "Loisirs") = some "Loisirs" ∧
    categorieEnfantOf (some "Loisirs") = some "Loisirs" ∧
    categorieParentOf none = none := by
  refine ⟨?_, ?_, ?_, ?_, ?_⟩
  · exact (((C8_category_split_spec (some "Loisirs > Cinéma")).2.1 _ rfl).1).trans (by decide)
  · exact (((C8_category_split_spec (some "Loisirs > Cinéma")).2.1 _ rfl).2).trans (by decide)
  · exact ((C8_category_split_spec (some "Loisirs")).2.2 _ rfl (by decide)).1
  · exact ((C8_category_split_spec (some "Loisirs")).2.2 _ rfl (by decide)).2
  · exact ((C8_category_split_spec none).1 rfl).1

/-- C9, counterexample: the claim says mapping a page into the
Transaction shape is total, tolerating an empty description rich-text;
on a concrete page whose description rich-text array is empty the
mapping faults (an IndexError in the code), so the claim as stated is
false. -/
theorem C9_counterexample_empty_description_faults :
    mapNotionPage c9page = Except.error "IndexError: Description rich_text is empty" ∧
    c9page.categorieSelect = none :=
  ⟨rfl, rfl⟩

/-- C9, amended: the mapping tolerates an unselected category and a null
amount with a null substitution, but it is not total: it succeeds exactly
when the date is present, the name title and the description rich-text
are non-empty, and the account select is present; any of those missing
faults the whole fetch. -/
theorem C9_mapping_totality_fails_spec (p : NotionPage) :
    ((∃ tx, mapNotionPage p = Except.ok tx) ↔
      (p.dateStart ≠ none ∧ p.nomTitle ≠ [] ∧
        p.descriptionRichText ≠ [] ∧ p.compteSelect ≠ none)) ∧
    (∀ tx, mapNotionPage p = Except.ok tx →
      tx.categorie = p.categorieSelect ∧ tx.montant = p.montantNumber) := by
  rcases hd : p.dateStart with _ | d <;>
    rcases hn : p.nomTitle with _ | ⟨n, ns⟩ <;>
    rcases hdc : p.descriptionRichText with _ | ⟨ds, dss⟩ <;>
    rcases hc : p.compteSelect with _ | cpt <;>
    constructor <;>
    simp [mapNotionPage, hd, hn, hdc, hc]

/-- Witness for C9 amended: a page with every required field present and
an unselected category maps successfully. -/
theorem C9_mapping_totality_fails_spec_witness :
    (c9okpage.dateStart ≠ none ∧ c9okpage.nomTitle ≠ [] ∧
      c9okpage.descriptionRichText ≠ [] ∧ c9okpage.compteSelect ≠ none) ∧
    (∃ tx, mapNotionPage c9okpage = Except.ok tx) := by
  have h1 : c9okpage.dateStart ≠ none ∧ c9okpage.nomTitle ≠ [] ∧
      c9okpage.descriptionRichText ≠ [] ∧ c9okpage.compteSelect ≠ none := by
    refine ⟨?_, ?_, ?_, ?_⟩ <;> simp [c9okpage]
  exact ⟨h1, (C9_mapping_totality_fails_spec c9okpage).1.mpr h1⟩

end FinanceTracker
